import Mathlib

/-!
Verification of the wakapi metrics endpoint (`src/routes/api/metrics.go`,
`src/unnamed/part_000` = package config) against its specification.

The handler code in `src/routes/api/metrics.go` is embedded faithfully below.
The metric model (package `models/metrics`: Gauge/Counter metric values, the
`Metrics` collection with its comparator and `Print` renderer), the summary
model (`models.Summary`) and the collaborator services are not part of `src/`;
they are modelled from the spec where marked, and otherwise treated as
opaque inputs (oracles) supplied through environment records.
-/

namespace Wakapi

/-! ### Metric model

Modelled from the spec: the `models/metrics` package is absent from `src/`.
Spec section 3: a Metric is a tagged variant (Gauge | Counter) with Name,
Desc, 64-bit signed integer Value and an ordered sequence of labels. -/

inductive MetricKind where
  | gauge
  | counter
deriving DecidableEq, Repr

structure Label where
  key : String
  value : String
deriving DecidableEq, Repr

structure Metric where
  kind : MetricKind
  name : String
  desc : String
  value : Int
  labels : List Label
deriving DecidableEq, Repr

/-- Mirror of `mm.GaugeMetric{...}` construction in the handler. -/
def GaugeMetric (name desc : String) (value : Int) (labels : List Label) : Metric :=
  ⟨MetricKind.gauge, name, desc, value, labels⟩

/-- Mirror of `mm.CounterMetric{...}` construction in the handler. -/
def CounterMetric (name desc : String) (value : Int) (labels : List Label) : Metric :=
  ⟨MetricKind.counter, name, desc, value, labels⟩

/-! ### Lexicographic string comparison

Executable lexicographic (codepoint-wise) order on strings, used by the
spec-modelled sort comparator. -/

def charListLtb : List Char → List Char → Bool
  | [], [] => false
  | [], _ :: _ => true
  | _ :: _, [] => false
  | a :: as, b :: bs => if a < b then true else if b < a then false else charListLtb as bs

def strLtb (a b : String) : Bool := charListLtb a.data b.data

def strLeb (a b : String) : Bool := !(strLtb b a)

/-- Sort key of a metric. Modelled from the spec, section 4.1: the sort key is
(Name, then the first label's value); a metric without labels uses the empty
string in the second component. -/
def firstLabelValue (m : Metric) : String :=
  match m.labels with
  | [] => ""
  | l :: _ => l.value

def metricKey (m : Metric) : String × String := (m.name, firstLabelValue m)

/-- Lexicographic order on sort keys (Name first, then first-label value). -/
def keyLEb (a b : String × String) : Bool :=
  strLtb a.1 b.1 || (a.1 == b.1 && strLeb a.2 b.2)

def keyLE (a b : String × String) : Prop := keyLEb a b = true

instance : DecidableRel keyLE :=
  fun a b => inferInstanceAs (Decidable (keyLEb a b = true))

/-- Comparator underlying `sort.Sort(metrics)`. Modelled from the spec:
ascending by (Name, then the first label's value). -/
def metricLE (m n : Metric) : Prop := keyLE (metricKey m) (metricKey n)

instance : DecidableRel metricLE :=
  fun m n => inferInstanceAs (Decidable (keyLE (metricKey m) (metricKey n)))

/-- Embedding of the `sort.Sort(metrics)` call (metrics.go line 123).
Go's `sort.Sort` guarantees only that the result is a permutation of the
input ordered by the comparator; it is documented as not stable. The
concrete comparison sort chosen here realises that contract; properties
of the call that depend on more than the contract are settled against
the relation `goSortRel` below, not against this function. -/
def sortMetrics (ms : List Metric) : List Metric := List.insertionSort metricLE ms

/-- The documented contract of Go's `sort.Sort`: the output is a permutation
of the input that is pairwise ordered by the comparator. Nothing more (in
particular not stability) is guaranteed. -/
def goSortRel (input output : List Metric) : Prop :=
  List.Perm output input ∧ List.Pairwise metricLE output

/-- Stability of a sort: for every key, the subsequence of elements carrying
that key is unchanged. -/
def stableFor (input output : List Metric) : Prop :=
  ∀ k : String × String,
    output.filter (fun m => metricKey m == k) = input.filter (fun m => metricKey m == k)

/-! ### Exposition renderer

Modelled from the spec, section 4.3: for each distinct Name in the set's
existing order emit one HELP and one TYPE line, then one sample line per
metric instance sharing that Name. -/

inductive ExpLine where
  | help (name desc : String)
  | typ (name : String) (kind : MetricKind)
  | sample (name : String) (labels : List Label) (value : Int)
deriving DecidableEq, Repr

def sampleOf (m : Metric) : ExpLine := ExpLine.sample m.name m.labels m.value

/-- Worker for `expositionLines`, with a fuel parameter bounding the number of
distinct names still to process (the input list's length always suffices,
since each round removes at least the group leader). -/
def expositionLinesGo : Nat → List Metric → List ExpLine
  | _, [] => []
  | 0, _ :: _ => []
  | Nat.succ fuel, m :: rest =>
    ExpLine.help m.name m.desc :: ExpLine.typ m.name m.kind ::
      ((m :: rest.filter (fun x => x.name == m.name)).map sampleOf
        ++ expositionLinesGo fuel (rest.filter (fun x => x.name != m.name)))

def expositionLines (ms : List Metric) : List ExpLine := expositionLinesGo ms.length ms

def kindStr : MetricKind → String
  | MetricKind.gauge => "gauge"
  | MetricKind.counter => "counter"

def renderLabels : List Label → String
  | [] => ""
  | ls =>
    "\x7b" ++ String.intercalate (",") (ls.map (fun l => l.key ++ "=\"" ++ l.value ++ "\"")) ++ "\x7d"

def renderLine : ExpLine → String
  | ExpLine.help n d => "# HELP " ++ n ++ " " ++ d
  | ExpLine.typ n k => "# TYPE " ++ n ++ " " ++ kindStr k
  | ExpLine.sample n ls v => n ++ renderLabels ls ++ " " ++ toString v

/-- Modelled from the spec: `Metrics.Print()`, serialization of the set into
line-oriented exposition text. -/
def printMetrics (ms : List Metric) : String :=
  String.intercalate ("\n") ((expositionLines ms).map renderLine)

/-! ### Constants from the source -/

def MetricsPrefix : String := "wakatime"

def DescHeartbeats : String := "Total number of tracked heartbeats."
def DescAllTime : String := "Total seconds (all time)."
def DescTotal : String := "Total seconds."
def DescEditors : String := "Total seconds for each editor."
def DescProjects : String := "Total seconds for each project."
def DescLanguages : String := "Total seconds for each language."
def DescOperatingSystems : String := "Total seconds for each operating system."
def DescMachines : String := "Total seconds for each machine."
def DescLabels : String := "Total seconds for each project label."
def DescAdminTotalTime : String := "Total seconds (all users, all time)."
def DescAdminTotalHeartbeats : String := "Total number of tracked heartbeats (all users, all time)"
def DescAdminUserHeartbeats : String := "Total number of tracked heartbeats by user (all time)."
def DescAdminUserTime : String := "Total tracked activity in seconds (all time) (active users only)."
def DescAdminTotalUsers : String := "Total number of registered users."
def DescAdminActiveUsers : String := "Number of active users."
def DescJobQueueEnqueued : String := "Number of jobs currently enqueued"
def DescJobQueueTotalFinished : String := "Total number of processed jobs"
def DescMemAllocTotal : String := "Total number of bytes allocated for heap"
def DescMemSysTotal : String := "Total number of bytes obtained from the OS"
def DescPausedTotal : String := "Total nanoseconds stop-the-world pause time due to GC"
def DescNumGCTotal : String := "Total number of GC cycles"
def DescGoroutines : String := "Total number of running goroutines"
def DescDatabaseSize : String := "Total database size in bytes"

/-- `config.ErrUnauthorized` (src/unnamed/part_000 line 43). -/
def ErrUnauthorized : String := "401 unauthorized"

/-- `config.ErrInternalServerError` (src/unnamed/part_000 line 45). -/
def ErrInternalServerError : String := "500 internal server error"

/-! ### Collaborator data model -/

structure User where
  id : String
  isAdmin : Bool
deriving DecidableEq, Repr

structure UserCount where
  user : String
  count : Int
deriving DecidableEq, Repr

structure QueueSnapshot where
  queue : String
  enqueuedJobs : Int
  finishedJobs : Int
deriving DecidableEq, Repr

structure RuntimeSnapshot where
  numGoroutine : Int
  alloc : Int
  sys : Int
  pauseTotalNs : Int
  numGC : Int
deriving DecidableEq, Repr

structure SummaryItem where
  key : String
  seconds : Int
deriving DecidableEq, Repr

/-- Modelled from the spec: `models.Summary` is not in `src/`. A summary
carries its total tracked seconds and the per-dimension breakdowns
(projects, languages, editors, operating systems, machines, labels),
each breakdown entry consisting of a key and its attributed seconds. -/
structure Summary where
  totalSeconds : Int
  projects : List SummaryItem
  languages : List SummaryItem
  editors : List SummaryItem
  operatingSystems : List SummaryItem
  machines : List SummaryItem
  labels : List SummaryItem
deriving DecidableEq, Repr

/-- Modelled from the spec: `summary.TotalTimeByKey(type, key)`, the seconds
attributed to one breakdown key. -/
def totalTimeByKey (items : List SummaryItem) (key : String) : Int :=
  ((items.filter (fun it => it.key == key)).map SummaryItem.seconds).sum

/-! ### Collaborator oracles

One record per handler function, holding the outcome of every backing-service
call the function makes; `Except String` models Go's `(value, error)` returns
with a non-nil error, `Option String` a discarded or tolerated error. -/

structure UserEnv where
  /-- Result of `summarySrvc.Aliased(time.Time{}, now, user, ...)` (all-time). -/
  summaryAllTime : Except String Summary
  /-- Result of `summarySrvc.Aliased(from, to, user, ...)` for "today". -/
  summaryToday : Except String Summary
  /-- Result of `heartbeatSrvc.CountByUser(user)`. -/
  heartbeatCount : Except String Int
  /-- `runtime.ReadMemStats` / `runtime.NumGoroutine()` snapshot. -/
  memStats : RuntimeSnapshot
  /-- Value returned by `metricsRepo.GetDatabaseSize()`. -/
  dbSize : Int
  /-- Error returned alongside by `GetDatabaseSize()`; the code only logs it. -/
  dbSizeErr : Option String
  /-- Result of `conf.GetQueueMetrics()` (no error return in Go). -/
  queueMetrics : List QueueSnapshot

structure AdminEnv where
  /-- Result of `keyValueSrvc.GetString(conf.KeyLatestTotalTime)`: error,
  nil pointer (`none`) or the stored string value. -/
  keyValue : Except String (Option String)
  /-- Oracle for Go's `time.ParseDuration`, returning the duration's whole
  seconds on success (stdlib function, not part of the repository). -/
  parseDuration : String → Option Int
  /-- Value returned by `userSrvc.Count()`; its error is discarded (`_`). -/
  totalUsers : Int
  /-- The discarded error of `userSrvc.Count()`. -/
  totalUsersErr : Option String
  /-- Value returned by `heartbeatSrvc.Count(true)`; its error is discarded. -/
  totalHeartbeats : Int
  /-- The discarded error of `heartbeatSrvc.Count(true)`. -/
  totalHeartbeatsErr : Option String
  /-- Result of `userSrvc.GetActive(false)`. -/
  activeUsers : Except String (List User)
  /-- Result of `heartbeatSrvc.CountByUsers(activeUsers)`. -/
  countByUsers : Except String (List UserCount)
  /-- Result of the per-user `summarySrvc.Aliased(from, to, u, ...)` call made
  inside the worker-pool task for the user with the given id. -/
  perUserSummary : String → Except String Summary

/-! ### getUserMetrics (metrics.go lines 129-299) -/

def getUserMetrics (env : UserEnv) : Except String (List Metric) :=
  match env.summaryAllTime with
  | Except.error e => Except.error e
  | Except.ok summaryAllTime =>
  match env.summaryToday with
  | Except.error e => Except.error e
  | Except.ok summaryToday =>
  match env.heartbeatCount with
  | Except.error e => Except.error e
  | Except.ok heartbeatCount =>
    Except.ok (
      [ GaugeMetric (MetricsPrefix ++ "_cumulative_seconds_total") DescAllTime summaryAllTime.totalSeconds []
      , GaugeMetric (MetricsPrefix ++ "_seconds_total") DescTotal summaryToday.totalSeconds []
      , GaugeMetric (MetricsPrefix ++ "_heartbeats_total") DescHeartbeats heartbeatCount [] ]
      ++ (summaryToday.projects.map (fun p =>
            GaugeMetric (MetricsPrefix ++ "_project_seconds_total") DescProjects
              (totalTimeByKey summaryToday.projects p.key) [⟨"name", p.key⟩]))
      ++ (summaryToday.languages.map (fun l =>
            GaugeMetric (MetricsPrefix ++ "_language_seconds_total") DescLanguages
              (totalTimeByKey summaryToday.languages l.key) [⟨"name", l.key⟩]))
      ++ (summaryToday.editors.map (fun e =>
            GaugeMetric (MetricsPrefix ++ "_editor_seconds_total") DescEditors
              (totalTimeByKey summaryToday.editors e.key) [⟨"name", e.key⟩]))
      ++ (summaryToday.operatingSystems.map (fun o =>
            GaugeMetric (MetricsPrefix ++ "_operating_system_seconds_total") DescOperatingSystems
              (totalTimeByKey summaryToday.operatingSystems o.key) [⟨"name", o.key⟩]))
      ++ (summaryToday.machines.map (fun m =>
            GaugeMetric (MetricsPrefix ++ "_machine_seconds_total") DescMachines
              (totalTimeByKey summaryToday.machines m.key) [⟨"name", m.key⟩]))
      ++ (summaryToday.labels.map (fun m =>
            GaugeMetric (MetricsPrefix ++ "_label_seconds_total") DescLabels
              (totalTimeByKey summaryToday.labels m.key) [⟨"name", m.key⟩]))
      ++ [ GaugeMetric (MetricsPrefix ++ "_goroutines_total") DescGoroutines env.memStats.numGoroutine []
         , GaugeMetric (MetricsPrefix ++ "_mem_alloc_total") DescMemAllocTotal env.memStats.alloc []
         , GaugeMetric (MetricsPrefix ++ "_mem_sys_total") DescMemSysTotal env.memStats.sys []
         , CounterMetric (MetricsPrefix ++ "_paused_total") DescPausedTotal env.memStats.pauseTotalNs []
         , CounterMetric (MetricsPrefix ++ "_num_gc_total") DescNumGCTotal env.memStats.numGC []
         , GaugeMetric (MetricsPrefix ++ "_db_total_bytes") DescDatabaseSize env.dbSize [] ]
      ++ env.queueMetrics.flatMap (fun qm =>
           [ GaugeMetric (MetricsPrefix ++ "_queue_jobs_enqueued") DescJobQueueEnqueued qm.enqueuedJobs [⟨"queue", qm.queue⟩]
           , CounterMetric (MetricsPrefix ++ "_queue_jobs_total_finished") DescJobQueueTotalFinished qm.finishedJobs [⟨"queue", qm.queue⟩] ]))

/-! ### getAdminMetrics (metrics.go lines 301-405) -/

/-- Resolution of the cached last-known total time (metrics.go lines 311-316):
the value counts only if the lookup returned no error, a non-nil entry with a
non-empty string, and the string parses as a duration; otherwise 0. -/
def latestTotalSeconds (env : AdminEnv) : Int :=
  match env.keyValue with
  | Except.ok (some v) =>
    if v == "" then 0
    else
      match env.parseDuration v with
      | some secs => secs
      | none => 0
  | _ => 0

/-- One `_admin_user_heartbeats_total` row (metrics.go lines 365-372). -/
def hbRow (uc : UserCount) : Metric :=
  GaugeMetric (MetricsPrefix ++ "_admin_user_heartbeats_total") DescAdminUserHeartbeats
    uc.count [⟨"user", uc.user⟩]

/-- One worker-pool task (metrics.go lines 383-399): on summary failure the
error is logged and no metric is appended; on success one labeled gauge is
appended under the lock. -/
def timeRow (env : AdminEnv) (u : User) : Option Metric :=
  match env.perUserSummary u.id with
  | Except.error _ => none
  | Except.ok s =>
    some (GaugeMetric (MetricsPrefix ++ "_admin_user_time_seconds_total") DescAdminUserTime
      s.totalSeconds [⟨"user", u.id⟩])

/-- The four instance-wide scalar gauges (metrics.go lines 329-355). -/
def adminScalars (totalSeconds totalHeartbeats totalUsers activeCount : Int) : List Metric :=
  [ GaugeMetric (MetricsPrefix ++ "_admin_seconds_total") DescAdminTotalTime totalSeconds []
  , GaugeMetric (MetricsPrefix ++ "_admin_heartbeats_total") DescAdminTotalHeartbeats totalHeartbeats []
  , GaugeMetric (MetricsPrefix ++ "_admin_users_total") DescAdminTotalUsers totalUsers []
  , GaugeMetric (MetricsPrefix ++ "_admin_users_active_total") DescAdminActiveUsers activeCount [] ]

/-- Embedding of `getAdminMetrics`. The bounded worker pool with its
mutex-guarded appends is modelled by `List.filterMap` in submission order:
the set of appended rows is deterministic (one optional row per active user),
only their interleaving is not, and every property stated about this function
below is invariant under permutation of those rows. -/
def getAdminMetrics (user : User) (env : AdminEnv) : Except String (List Metric) :=
  if user.isAdmin = false then Except.error ("unauthorized")
  else
    match env.activeUsers with
    | Except.error e => Except.error e
    | Except.ok activeUsers =>
      match env.countByUsers with
      | Except.error e => Except.error e
      | Except.ok userCounts =>
        Except.ok
          (adminScalars (latestTotalSeconds env) env.totalHeartbeats env.totalUsers
              (activeUsers.length : Int)
            ++ userCounts.map hbRow
            ++ activeUsers.filterMap (timeRow env))

/-! ### The handler Get (metrics.go lines 89-127) -/

structure Response where
  status : Nat
  contentType : Option String
  body : String
deriving DecidableEq, Repr

def Get (principal : Option User) (uenv : UserEnv) (aenv : AdminEnv) : Response :=
  match principal with
  | none => ⟨401, none, ErrUnauthorized⟩
  | some user =>
    match getUserMetrics uenv with
    | Except.error _ => ⟨500, none, ErrInternalServerError⟩
    | Except.ok userMetrics =>
      if user.isAdmin then
        match getAdminMetrics user aenv with
        | Except.error _ => ⟨500, none, ErrInternalServerError⟩
        | Except.ok adminMetrics =>
          ⟨200, some ("text/plain; charset=utf-8"),
            printMetrics (sortMetrics (userMetrics ++ adminMetrics))⟩
      else
        ⟨200, some ("text/plain; charset=utf-8"), printMetrics (sortMetrics userMetrics)⟩

/-- The sorted metric list underlying a successful response of `Get`
(`none` exactly when `Get` answers 401 or 500). -/
def responseMetrics (principal : Option User) (uenv : UserEnv) (aenv : AdminEnv) :
    Option (List Metric) :=
  match principal with
  | none => none
  | some user =>
    match getUserMetrics uenv with
    | Except.error _ => none
    | Except.ok userMetrics =>
      if user.isAdmin then
        match getAdminMetrics user aenv with
        | Except.error _ => none
        | Except.ok adminMetrics => some (sortMetrics (userMetrics ++ adminMetrics))
      else
        some (sortMetrics userMetrics)

/-! ### Order-theoretic facts about the comparator -/

theorem charListLtb_irrefl : ∀ l : List Char, charListLtb l l = false := by
  intro l
  induction l with
  | nil => rfl
  | cons a as ih => simp [charListLtb, ih]

theorem charListLtb_asymm :
    ∀ a b : List Char, charListLtb a b = true → charListLtb b a = false := by
  intro a
  induction a with
  | nil =>
    intro b h
    cases b with
    | nil => simp [charListLtb] at h
    | cons bh bt => rfl
  | cons ah as ih =>
    intro b h
    cases b with
    | nil => simp [charListLtb] at h
    | cons bh bt =>
      simp only [charListLtb] at h ⊢
      rcases lt_trichotomy ah bh with hlt | heq | hgt
      · rw [if_neg (lt_asymm hlt), if_pos hlt]
      · subst heq
        rw [if_neg (lt_irrefl ah), if_neg (lt_irrefl ah)] at h ⊢
        exact ih bt h
      · rw [if_neg (lt_asymm hgt), if_pos hgt] at h
        exact absurd h (by simp)

theorem charListLtb_connex :
    ∀ a b : List Char, charListLtb a b = false → charListLtb b a = false → a = b := by
  intro a
  induction a with
  | nil =>
    intro b h1 _
    cases b with
    | nil => rfl
    | cons bh bt => simp [charListLtb] at h1
  | cons ah as ih =>
    intro b h1 h2
    cases b with
    | nil => simp [charListLtb] at h2
    | cons bh bt =>
      simp only [charListLtb] at h1 h2
      rcases lt_trichotomy ah bh with hlt | heq | hgt
      · rw [if_pos hlt] at h1
        exact absurd h1 (by simp)
      · subst heq
        rw [if_neg (lt_irrefl ah), if_neg (lt_irrefl ah)] at h1 h2
        rw [ih bt h1 h2]
      · rw [if_pos hgt] at h2
        exact absurd h2 (by simp)

theorem charListLtb_trans :
    ∀ a b c : List Char, charListLtb a b = true → charListLtb b c = true →
      charListLtb a c = true := by
  intro a
  induction a with
  | nil =>
    intro b c h1 h2
    cases b with
    | nil => exact h2
    | cons bh bt =>
      cases c with
      | nil => simp [charListLtb] at h2
      | cons ch ct => rfl
  | cons ah as ih =>
    intro b c h1 h2
    cases b with
    | nil => simp [charListLtb] at h1
    | cons bh bt =>
      cases c with
      | nil => simp [charListLtb] at h2
      | cons ch ct =>
        simp only [charListLtb] at h1 h2 ⊢
        rcases lt_trichotomy ah bh with hab | hab | hab
        · rcases lt_trichotomy bh ch with hbc | hbc | hbc
          · rw [if_pos (lt_trans hab hbc)]
          · subst hbc
            rw [if_pos hab]
          · rw [if_neg (lt_asymm hbc), if_pos hbc] at h2
            exact absurd h2 (by simp)
        · subst hab
          rw [if_neg (lt_irrefl ah), if_neg (lt_irrefl ah)] at h1
          rcases lt_trichotomy ah ch with hbc | hbc | hbc
          · rw [if_pos hbc]
          · subst hbc
            rw [if_neg (lt_irrefl ah), if_neg (lt_irrefl ah)] at h2 ⊢
            exact ih bt ct h1 h2
          · rw [if_neg (lt_asymm hbc), if_pos hbc] at h2
            exact absurd h2 (by simp)
        · rw [if_neg (lt_asymm hab), if_pos hab] at h1
          exact absurd h1 (by simp)

/-- If neither list is lexicographically below the other in either direction of
a chain, the outer comparison also fails: `le` (as `not lt`) is transitive. -/
theorem charListLtb_le_trans :
    ∀ a b c : List Char, charListLtb b a = false → charListLtb c b = false →
      charListLtb c a = false := by
  intro a b c h1 h2
  cases hab : charListLtb a b with
  | true =>
    cases hbc : charListLtb b c with
    | true => exact charListLtb_asymm _ _ (charListLtb_trans a b c hab hbc)
    | false =>
      rw [← charListLtb_connex b c hbc h2]
      exact charListLtb_asymm _ _ hab
  | false =>
    cases hbc : charListLtb b c with
    | true =>
      rw [charListLtb_connex a b hab h1]
      exact charListLtb_asymm _ _ hbc
    | false =>
      rw [← charListLtb_connex b c hbc h2]
      exact h1

theorem strLtb_asymm {a b : String} (h : strLtb a b = true) : strLtb b a = false :=
  charListLtb_asymm _ _ h

theorem strLtb_trans {a b c : String} (h1 : strLtb a b = true) (h2 : strLtb b c = true) :
    strLtb a c = true :=
  charListLtb_trans _ _ _ h1 h2

theorem strEq_of_not_ltb {a b : String} (h1 : strLtb a b = false) (h2 : strLtb b a = false) :
    a = b := by
  cases a with
  | mk da =>
    cases b with
    | mk db =>
      have h := charListLtb_connex da db h1 h2
      rw [h]

theorem keyLEb_total (a b : String × String) : keyLEb a b = true ∨ keyLEb b a = true := by
  unfold keyLEb
  cases h1 : strLtb a.1 b.1 with
  | true => left; simp [h1]
  | false =>
    cases h2 : strLtb b.1 a.1 with
    | true => right; simp [h2]
    | false =>
      have he := strEq_of_not_ltb h1 h2
      cases h3 : strLtb b.2 a.2 with
      | false => left; simp [he, strLeb, h3]
      | true =>
        right
        have h4 := strLtb_asymm h3
        simp [he, strLeb, h4]

theorem keyLEb_trans {a b c : String × String}
    (h1 : keyLEb a b = true) (h2 : keyLEb b c = true) : keyLEb a c = true := by
  unfold keyLEb at h1 h2 ⊢
  simp only [Bool.or_eq_true, Bool.and_eq_true, beq_iff_eq] at h1 h2 ⊢
  rcases h1 with h1 | ⟨h1e, h1le⟩
  · rcases h2 with h2 | ⟨h2e, _⟩
    · exact Or.inl (strLtb_trans h1 h2)
    · exact Or.inl (h2e ▸ h1)
  · rcases h2 with h2 | ⟨h2e, h2le⟩
    · exact Or.inl (h1e ▸ h2)
    · refine Or.inr ⟨h1e.trans h2e, ?_⟩
      unfold strLeb at h1le h2le ⊢
      simp only [Bool.not_eq_true', Bool.not_eq_false'] at h1le h2le ⊢
      exact charListLtb_le_trans _ _ _ h1le h2le

instance : IsTotal Metric metricLE :=
  ⟨fun m n => keyLEb_total (metricKey m) (metricKey n)⟩

instance : IsTrans Metric metricLE :=
  ⟨fun _ _ _ h1 h2 => keyLEb_trans h1 h2⟩

theorem sortMetrics_perm (ms : List Metric) : List.Perm (sortMetrics ms) ms :=
  List.perm_insertionSort _ _

theorem sortMetrics_sorted (ms : List Metric) : List.Pairwise metricLE (sortMetrics ms) :=
  List.sorted_insertionSort _ _

theorem sortMetrics_goSortRel (ms : List Metric) : goSortRel ms (sortMetrics ms) :=
  ⟨sortMetrics_perm ms, sortMetrics_sorted ms⟩

/-! ### Renderer lemmas -/

/-- The (Name, first-label-value) key carried by a sample line; declaration
lines carry no key. -/
def sampleKey : ExpLine → Option (String × String)
  | ExpLine.sample n ls _ =>
    some (n, match ls with
             | [] => ""
             | l :: _ => l.value)
  | _ => none

theorem sampleKey_sampleOf (m : Metric) : sampleKey (sampleOf m) = some (metricKey m) := by
  cases m with
  | mk kind name desc value labels =>
    cases labels with
    | nil => rfl
    | cons l ls => rfl

theorem name_lt_of_metricLE_ne {m y : Metric} (h : metricLE m y) (hne : ¬ y.name = m.name) :
    strLtb m.name y.name = true := by
  unfold metricLE keyLE keyLEb metricKey at h
  simp only [Bool.or_eq_true, Bool.and_eq_true, beq_iff_eq] at h
  rcases h with h | ⟨he, _⟩
  · exact h
  · exact absurd he.symm hne

theorem filterMap_sampleKey_map_sampleOf (l : List Metric) :
    (l.map sampleOf).filterMap sampleKey = l.map metricKey := by
  induction l with
  | nil => rfl
  | cons x xs ih => simp [List.filterMap_cons, sampleKey_sampleOf, ih]

theorem filterMap_sampleKey_expositionLinesGo_cons (fuel : Nat) (m : Metric)
    (rest : List Metric) :
    (expositionLinesGo (Nat.succ fuel) (m :: rest)).filterMap sampleKey
      = (m :: rest.filter (fun x => x.name == m.name)).map metricKey
        ++ (expositionLinesGo fuel (rest.filter (fun x => x.name != m.name))).filterMap
            sampleKey := by
  rw [expositionLinesGo]
  simp only [List.filterMap_cons, sampleKey, List.filterMap_append,
    filterMap_sampleKey_map_sampleOf]

theorem length_filter_le_of_cons_le {m : Metric} {rest : List Metric} {fuel : Nat}
    (h : (m :: rest).length ≤ Nat.succ fuel) (p : Metric → Bool) :
    (rest.filter p).length ≤ fuel := by
  have h1 : rest.length ≤ fuel := Nat.le_of_succ_le_succ h
  exact le_trans (List.length_filter_le _ _) h1

theorem sampleKey_mem_expositionLinesGo :
    ∀ (fuel : Nat) (l : List Metric) (k : String × String), l.length ≤ fuel →
      k ∈ (expositionLinesGo fuel l).filterMap sampleKey → ∃ x ∈ l, metricKey x = k := by
  intro fuel
  induction fuel with
  | zero =>
    intro l k hlen hk
    cases l with
    | nil => simp [expositionLinesGo] at hk
    | cons m rest => simp at hlen
  | succ fuel ih =>
    intro l k hlen hk
    cases l with
    | nil => simp [expositionLinesGo] at hk
    | cons m rest =>
      rw [filterMap_sampleKey_expositionLinesGo_cons] at hk
      rcases List.mem_append.mp hk with hk | hk
      · rcases List.mem_map.mp hk with ⟨x, hxmem, hxk⟩
        rcases List.mem_cons.mp hxmem with hxm | hxf
        · exact ⟨m, List.mem_cons_self _ _, by rw [hxm] at hxk; exact hxk⟩
        · exact ⟨x, List.mem_cons_of_mem _ (List.mem_of_mem_filter hxf), hxk⟩
      · rcases ih _ k (length_filter_le_of_cons_le hlen _) hk with ⟨x, hxmem, hxk⟩
        exact ⟨x, List.mem_cons_of_mem _ (List.mem_of_mem_filter hxmem), hxk⟩

theorem sampleKey_mem_expositionLines (l : List Metric) (k : String × String)
    (hk : k ∈ (expositionLines l).filterMap sampleKey) : ∃ x ∈ l, metricKey x = k :=
  sampleKey_mem_expositionLinesGo l.length l k (le_refl _) hk

theorem expositionLinesGo_samples_pairwise :
    ∀ (fuel : Nat) (l : List Metric), l.length ≤ fuel → List.Pairwise metricLE l →
      List.Pairwise keyLE ((expositionLinesGo fuel l).filterMap sampleKey) := by
  intro fuel
  induction fuel with
  | zero =>
    intro l hlen _
    cases l with
    | nil => simp [expositionLinesGo]
    | cons m rest => simp at hlen
  | succ fuel ih =>
    intro l hlen hp
    cases l with
    | nil => simp [expositionLinesGo]
    | cons m rest =>
    have hrest : List.Pairwise metricLE rest := (List.pairwise_cons.mp hp).2
    have hm : ∀ y ∈ rest, metricLE m y := (List.pairwise_cons.mp hp).1
    rw [filterMap_sampleKey_expositionLinesGo_cons]
    rw [List.pairwise_append]
    refine ⟨?_, ?_, ?_⟩
    · have hsub : List.Sublist (m :: rest.filter (fun x => x.name == m.name)) (m :: rest) :=
        List.Sublist.cons₂ m (List.filter_sublist rest)
      have hpw : List.Pairwise metricLE (m :: rest.filter (fun x => x.name == m.name)) :=
        hp.sublist hsub
      exact hpw.map metricKey (fun a b h => h)
    · exact ih _ (length_filter_le_of_cons_le hlen _) (hrest.sublist (List.filter_sublist rest))
    · intro k1 hk1 k2 hk2
      rcases sampleKey_mem_expositionLinesGo fuel _ k2
        (length_filter_le_of_cons_le hlen _) hk2 with ⟨y, hymem, hyk⟩
      have hyrest : y ∈ rest := List.mem_of_mem_filter hymem
      have hyne : ¬ y.name = m.name := by
        have := (List.mem_filter.mp hymem).2
        simpa using this
      rcases List.mem_map.mp hk1 with ⟨x, hxmem, hxk⟩
      have hxname : x.name = m.name := by
        rcases List.mem_cons.mp hxmem with hxm | hxf
        · rw [hxm]
        · have := (List.mem_filter.mp hxf).2
          simpa using this
      have hlt : strLtb m.name y.name = true := name_lt_of_metricLE_ne (hm y hyrest) hyne
      rw [← hxk, ← hyk]
      unfold keyLE keyLEb metricKey
      simp [hxname, hlt]

theorem expositionLines_samples_pairwise (l : List Metric)
    (hp : List.Pairwise metricLE l) :
    List.Pairwise keyLE ((expositionLines l).filterMap sampleKey) :=
  expositionLinesGo_samples_pairwise l.length l (le_refl _) hp

/-! ### Concrete scenario environments -/

def emptySummary : Summary := ⟨0, [], [], [], [], [], []⟩

def okUserEnv : UserEnv :=
  ⟨Except.ok emptySummary, Except.ok emptySummary, Except.ok 0, ⟨0, 0, 0, 0, 0⟩, 0, none, []⟩

def adminUser : User := ⟨"root", true⟩

def plainUser : User := ⟨"alice", false⟩

def okAdminEnv : AdminEnv :=
  ⟨Except.ok none, fun _ => none, 0, none, 0, none, Except.ok [], Except.ok [],
    fun _ => Except.ok emptySummary⟩

/-- User-metrics environment whose only failure is the database-size query. -/
def dbFailUserEnv : UserEnv :=
  ⟨Except.ok emptySummary, Except.ok emptySummary, Except.ok 0, ⟨0, 0, 0, 0, 0⟩, 0,
    some ("db query failed"), []⟩

/-- User-metrics environment whose all-time summary retrieval fails. -/
def allTimeFailUserEnv : UserEnv :=
  ⟨Except.error ("summary service down"), Except.ok emptySummary, Except.ok 0,
    ⟨0, 0, 0, 0, 0⟩, 0, none, []⟩

/-- Admin environment in which the cached-total-time lookup, the total user
count and the total heartbeat count all fail, while the active-user retrieval
and the batched per-user count succeed. -/
def scalarFailAdminEnv : AdminEnv :=
  ⟨Except.error ("kv store down"), fun _ => none, 0, some ("user count failed"), 0,
    some ("heartbeat count failed"), Except.ok [], Except.ok [],
    fun _ => Except.ok emptySummary⟩

/-- Admin environment whose active-user retrieval fails. -/
def activeFailAdminEnv : AdminEnv :=
  ⟨Except.ok none, fun _ => none, 0, none, 0, none, Except.error ("users query failed"),
    Except.ok [], fun _ => Except.ok emptySummary⟩

/-! ## Claims -/

/-- **C6.** For every request with no authenticated principal, the handler
responds with status 401 and a body that is exactly the string
"401 unauthorized", and performs no metric collection: the response is the
same whatever every collaborator would have answered, and no metric list
underlies it. -/
theorem get_noPrincipal_unauthorized (uenv : UserEnv) (aenv : AdminEnv) :
    Get none uenv aenv = ⟨401, none, "401 unauthorized"⟩ ∧
      responseMetrics none uenv aenv = none :=
  ⟨rfl, rfl⟩

/-- **C1 counterexample.** With the database-size query failing and every
other collaborator succeeding, `getUserMetrics` still succeeds and the handler
responds 200: a database-size failure does not abort the request, refuting the
claim that any collaborator failure in the sequential user-scoped phase
(including the database-size query) aborts it. -/
theorem getUserMetrics_dbFailure_responds200 :
    dbFailUserEnv.dbSizeErr = some ("db query failed") ∧
      (∃ ms, getUserMetrics dbFailUserEnv = Except.ok ms) ∧
      (Get (some plainUser) dbFailUserEnv okAdminEnv).status = 200 :=
  ⟨rfl, ⟨_, rfl⟩, rfl⟩

/-- **C1 (amended).** If the all-time summary retrieval, the today summary
retrieval, or the heartbeat count fails, the whole request aborts:
`getUserMetrics` returns an error and the handler responds 500 with the
generic message and no metric body. (A database-size failure is only logged,
and the queue-snapshot list has no failure mode.) -/
theorem getUserMetrics_sequentialFailure_aborts
    (uenv : UserEnv) (aenv : AdminEnv) (u : User)
    (h : (∃ e, uenv.summaryAllTime = Except.error e) ∨
         (∃ e, uenv.summaryToday = Except.error e) ∨
         (∃ e, uenv.heartbeatCount = Except.error e)) :
    (∃ e, getUserMetrics uenv = Except.error e) ∧
      Get (some u) uenv aenv = ⟨500, none, ErrInternalServerError⟩ ∧
      responseMetrics (some u) uenv aenv = none := by
  have herr : ∃ e, getUserMetrics uenv = Except.error e := by
    unfold getUserMetrics
    rcases h with ⟨e, he⟩ | ⟨e, he⟩ | ⟨e, he⟩
    · rw [he]
      exact ⟨e, rfl⟩
    · cases ha : uenv.summaryAllTime with
      | error e2 => exact ⟨e2, rfl⟩
      | ok s =>
        rw [he]
        exact ⟨e, rfl⟩
    · cases ha : uenv.summaryAllTime with
      | error e2 => exact ⟨e2, rfl⟩
      | ok s =>
        cases hb : uenv.summaryToday with
        | error e2 => exact ⟨e2, rfl⟩
        | ok s2 =>
          rw [he]
          exact ⟨e, rfl⟩
  rcases herr with ⟨e, he⟩
  refine ⟨⟨e, he⟩, ?_, ?_⟩
  · unfold Get
    rw [he]
  · unfold responseMetrics
    rw [he]

/-- Witness for `getUserMetrics_sequentialFailure_aborts` at a concrete
environment whose all-time summary fails. -/
theorem getUserMetrics_sequentialFailure_aborts_witness :
    (∃ e, getUserMetrics allTimeFailUserEnv = Except.error e) ∧
      Get (some plainUser) allTimeFailUserEnv okAdminEnv = ⟨500, none, ErrInternalServerError⟩ ∧
      responseMetrics (some plainUser) allTimeFailUserEnv okAdminEnv = none :=
  getUserMetrics_sequentialFailure_aborts allTimeFailUserEnv okAdminEnv plainUser
    (Or.inl ⟨"summary service down", rfl⟩)

/-- **C2 counterexample.** With the cached-total-time lookup, the total user
count and the total heartbeat count all failing (and the active-user retrieval
succeeding), `getAdminMetrics` still succeeds and the handler responds 200 —
refuting the claim that a failure of any of the four sequential scalar
retrievals aborts the admin segment. -/
theorem getAdminMetrics_scalarFailures_respond200 :
    scalarFailAdminEnv.keyValue = Except.error ("kv store down") ∧
      scalarFailAdminEnv.totalUsersErr = some ("user count failed") ∧
      scalarFailAdminEnv.totalHeartbeatsErr = some ("heartbeat count failed") ∧
      (∃ ms, getAdminMetrics adminUser scalarFailAdminEnv = Except.ok ms) ∧
      (Get (some adminUser) okUserEnv scalarFailAdminEnv).status = 200 :=
  ⟨rfl, rfl, rfl, ⟨_, rfl⟩, rfl⟩

/-- **C2 (amended).** Among the sequential instance-wide retrievals of
`getAdminMetrics`, only a failure of the active-user retrieval aborts
(`getAdminMetrics` errors and the handler responds 500); failures of the
cached-total-time lookup, the total user count and the total heartbeat count
are tolerated, the returned (zero-valued) results being used instead. -/
theorem getAdminMetrics_activeUsersFailure_aborts (u : User) (hu : u.isAdmin = true) :
    (∀ (uenv : UserEnv) (aenv : AdminEnv),
      (∃ ms, getUserMetrics uenv = Except.ok ms) →
      (∃ e, aenv.activeUsers = Except.error e) →
      (∃ e, getAdminMetrics u aenv = Except.error e) ∧
        Get (some u) uenv aenv = ⟨500, none, ErrInternalServerError⟩) ∧
    (∀ aenv : AdminEnv,
      (∃ us, aenv.activeUsers = Except.ok us) →
      (∃ cs, aenv.countByUsers = Except.ok cs) →
      ∃ ms, getAdminMetrics u aenv = Except.ok ms) := by
  constructor
  · intro uenv aenv hok hfail
    rcases hfail with ⟨e, he⟩
    have herr : getAdminMetrics u aenv = Except.error e := by
      unfold getAdminMetrics
      rw [hu, he]
      rfl
    refine ⟨⟨e, herr⟩, ?_⟩
    rcases hok with ⟨ms, hms⟩
    simp [Get, hms, hu, herr]
  · intro aenv hus hcs
    rcases hus with ⟨us, hus⟩
    rcases hcs with ⟨cs, hcs⟩
    unfold getAdminMetrics
    rw [hu, hus, hcs]
    exact ⟨_, rfl⟩

/-- Witness for `getAdminMetrics_activeUsersFailure_aborts` at concrete
environments: an aborting one with the active-user query failing, and a
tolerated one with the three scalar lookups failing. -/
theorem getAdminMetrics_activeUsersFailure_aborts_witness :
    ((∃ e, getAdminMetrics adminUser activeFailAdminEnv = Except.error e) ∧
      Get (some adminUser) okUserEnv activeFailAdminEnv
        = ⟨500, none, ErrInternalServerError⟩) ∧
    (∃ ms, getAdminMetrics adminUser scalarFailAdminEnv = Except.ok ms) :=
  ⟨(getAdminMetrics_activeUsersFailure_aborts adminUser rfl).1 okUserEnv activeFailAdminEnv
      ⟨_, rfl⟩ ⟨"users query failed", rfl⟩,
    (getAdminMetrics_activeUsersFailure_aborts adminUser rfl).2 scalarFailAdminEnv
      ⟨[], rfl⟩ ⟨[], rfl⟩⟩

/-! ### Shape lemmas for the admin rows -/

theorem hbRow_name (uc : UserCount) :
    (hbRow uc).name = MetricsPrefix ++ "_admin_user_heartbeats_total" := rfl

theorem hbRow_labels (uc : UserCount) : (hbRow uc).labels = [⟨"user", uc.user⟩] := rfl

theorem timeRow_shape {aenv : AdminEnv} {u : User} {m : Metric}
    (h : timeRow aenv u = some m) :
    m.name = MetricsPrefix ++ "_admin_user_time_seconds_total" ∧
      m.labels = [⟨"user", u.id⟩] := by
  unfold timeRow at h
  cases hs : aenv.perUserSummary u.id with
  | error e =>
    rw [hs] at h
    cases h
  | ok s =>
    rw [hs] at h
    cases h
    exact ⟨rfl, rfl⟩

/-- **C9.** If the cached last-known total time is absent, empty, fails to
parse as a duration, or the key-value lookup itself errors, `getAdminMetrics`
does not fail: provided the aborting calls succeed, it returns a metric set
whose sole `_admin_seconds_total` gauge carries value 0. -/
theorem adminSecondsTotal_defaults_zero
    (aenv : AdminEnv) (u : User) (hu : u.isAdmin = true)
    (hkv : (∃ e, aenv.keyValue = Except.error e) ∨
           aenv.keyValue = Except.ok none ∨
           aenv.keyValue = Except.ok (some ("")) ∨
           (∃ v, aenv.keyValue = Except.ok (some v) ∧ aenv.parseDuration v = none))
    (hus : ∃ us, aenv.activeUsers = Except.ok us)
    (hcs : ∃ cs, aenv.countByUsers = Except.ok cs) :
    ∃ ms, getAdminMetrics u aenv = Except.ok ms ∧
      ms.filter (fun m => m.name == MetricsPrefix ++ "_admin_seconds_total")
        = [GaugeMetric (MetricsPrefix ++ "_admin_seconds_total") DescAdminTotalTime 0 []] := by
  obtain ⟨us, hus⟩ := hus
  obtain ⟨cs, hcs⟩ := hcs
  have hz : latestTotalSeconds aenv = 0 := by
    unfold latestTotalSeconds
    rcases hkv with ⟨e, he⟩ | he | he | ⟨v, he, hp⟩
    · rw [he]
    · rw [he]
    · rw [he]
      rfl
    · rw [he]
      cases hveq : v == ("") with
      | true => simp [hveq]
      | false => simp [hveq, hp]
  have hok : getAdminMetrics u aenv = Except.ok
      (adminScalars 0 aenv.totalHeartbeats aenv.totalUsers (us.length : Int)
        ++ cs.map hbRow ++ us.filterMap (timeRow aenv)) := by
    simp [getAdminMetrics, hu, hus, hcs, hz]
  refine ⟨_, hok, ?_⟩
  rw [List.filter_append, List.filter_append]
  have h1 : (adminScalars 0 aenv.totalHeartbeats aenv.totalUsers (us.length : Int)).filter
      (fun m => m.name == MetricsPrefix ++ "_admin_seconds_total")
      = [GaugeMetric (MetricsPrefix ++ "_admin_seconds_total") DescAdminTotalTime 0 []] := rfl
  have h2 : (cs.map hbRow).filter
      (fun m => m.name == MetricsPrefix ++ "_admin_seconds_total") = [] := by
    rw [List.filter_eq_nil_iff]
    intro m hm
    rcases List.mem_map.mp hm with ⟨uc, _, hrfl⟩
    rw [← hrfl]
    simp only [hbRow_name]
    decide
  have h3 : (us.filterMap (timeRow aenv)).filter
      (fun m => m.name == MetricsPrefix ++ "_admin_seconds_total") = [] := by
    rw [List.filter_eq_nil_iff]
    intro m hm
    rcases List.mem_filterMap.mp hm with ⟨v, _, hv⟩
    simp only [(timeRow_shape hv).1]
    decide
  rw [h1, h2, h3]
  simp

/-- Witness for `adminSecondsTotal_defaults_zero`: the concrete admin
environment whose key-value lookup errors. -/
theorem adminSecondsTotal_defaults_zero_witness :
    ∃ ms, getAdminMetrics adminUser scalarFailAdminEnv = Except.ok ms ∧
      ms.filter (fun m => m.name == MetricsPrefix ++ "_admin_seconds_total")
        = [GaugeMetric (MetricsPrefix ++ "_admin_seconds_total") DescAdminTotalTime 0 []] :=
  adminSecondsTotal_defaults_zero scalarFailAdminEnv adminUser rfl
    (Or.inl ⟨"kv store down", rfl⟩) ⟨[], rfl⟩ ⟨[], rfl⟩

/-! ### Shape of the user-scoped metric set -/

/-- `p` is a prefix of `s` (executable, character-wise). -/
def strHasPrefix (p s : String) : Bool := p.data.isPrefixOf s.data

/-- Names of the label-less user-scoped metrics. -/
def scalarUserNames : List String :=
  [ "wakatime_cumulative_seconds_total", "wakatime_seconds_total",
    "wakatime_heartbeats_total", "wakatime_goroutines_total",
    "wakatime_mem_alloc_total", "wakatime_mem_sys_total", "wakatime_paused_total",
    "wakatime_num_gc_total", "wakatime_db_total_bytes" ]

/-- Names of the per-breakdown user metrics (one label, key "name"). -/
def breakdownNames : List String :=
  [ "wakatime_project_seconds_total", "wakatime_language_seconds_total",
    "wakatime_editor_seconds_total", "wakatime_operating_system_seconds_total",
    "wakatime_machine_seconds_total", "wakatime_label_seconds_total" ]

/-- Names of the job-queue metrics (one label, key "queue"). -/
def queueNames : List String :=
  [ "wakatime_queue_jobs_enqueued", "wakatime_queue_jobs_total_finished" ]

theorem name_GaugeMetric (n d : String) (v : Int) (ls : List Label) :
    (GaugeMetric n d v ls).name = n := rfl

theorem name_CounterMetric (n d : String) (v : Int) (ls : List Label) :
    (CounterMetric n d v ls).name = n := rfl

theorem labels_GaugeMetric (n d : String) (v : Int) (ls : List Label) :
    (GaugeMetric n d v ls).labels = ls := rfl

theorem labels_CounterMetric (n d : String) (v : Int) (ls : List Label) :
    (CounterMetric n d v ls).labels = ls := rfl

theorem getUserMetrics_shape {uenv : UserEnv} {ms : List Metric}
    (h : getUserMetrics uenv = Except.ok ms) :
    ∀ m ∈ ms,
      (m.name ∈ scalarUserNames ∧ m.labels = []) ∨
      (m.name ∈ breakdownNames ∧ ∃ k, m.labels = [⟨"name", k⟩]) ∨
      (m.name ∈ queueNames ∧ ∃ q, m.labels = [⟨"queue", q⟩]) := by
  unfold getUserMetrics at h
  cases ha : uenv.summaryAllTime with
  | error e =>
    rw [ha] at h
    cases h
  | ok sAll =>
  rw [ha] at h
  cases hb : uenv.summaryToday with
  | error e =>
    rw [hb] at h
    cases h
  | ok sToday =>
  rw [hb] at h
  cases hc : uenv.heartbeatCount with
  | error e =>
    rw [hc] at h
    cases h
  | ok hbc =>
  rw [hc] at h
  cases h
  intro m hm
  simp only [List.mem_append, List.mem_map, List.mem_flatMap, List.mem_cons,
    List.not_mem_nil, or_false] at hm
  rcases hm with
    ((((((((rfl | rfl | rfl) | ⟨a, _, rfl⟩) | ⟨a, _, rfl⟩) | ⟨a, _, rfl⟩) | ⟨a, _, rfl⟩)
      | ⟨a, _, rfl⟩) | ⟨a, _, rfl⟩) | (rfl | rfl | rfl | rfl | rfl | rfl)) | ⟨a, _, rfl | rfl⟩
  all_goals simp only [name_GaugeMetric, name_CounterMetric, labels_GaugeMetric,
    labels_CounterMetric]
  all_goals first
    | exact Or.inl ⟨by decide, by trivial⟩
    | exact Or.inr (Or.inl ⟨by decide, _, rfl⟩)
    | exact Or.inr (Or.inr ⟨by decide, _, rfl⟩)

/-- **C8.** `getAdminMetrics` called for a non-admin user returns the
authorization error and no metrics, and a non-admin response contains zero
admin-scoped metrics (no metric whose name starts with "wakatime_admin_"). -/
theorem nonAdmin_no_admin_metrics :
    (∀ (u : User) (aenv : AdminEnv), u.isAdmin = false →
      getAdminMetrics u aenv = Except.error ("unauthorized")) ∧
    (∀ (u : User) (uenv : UserEnv) (aenv : AdminEnv) (ms : List Metric), u.isAdmin = false →
      responseMetrics (some u) uenv aenv = some ms →
      ms.countP (fun m => strHasPrefix ("wakatime_admin_") m.name) = 0) := by
  constructor
  · intro u aenv hu
    simp [getAdminMetrics, hu]
  · intro u uenv aenv ms hu hresp
    unfold responseMetrics at hresp
    cases hg : getUserMetrics uenv with
    | error e =>
      rw [hg] at hresp
      cases hresp
    | ok ums =>
      simp only [hg, hu, Bool.false_eq_true, if_false, Option.some_inj] at hresp
      subst hresp
      rw [(sortMetrics_perm ums).countP_eq]
      rw [List.countP_eq_zero]
      intro m hmem
      rcases getUserMetrics_shape hg m hmem with ⟨hn, _⟩ | ⟨hn, _⟩ | ⟨hn, _⟩
      · have hall : ∀ x ∈ scalarUserNames, strHasPrefix ("wakatime_admin_") x = false := by
          decide
        simp [hall m.name hn]
      · have hall : ∀ x ∈ breakdownNames, strHasPrefix ("wakatime_admin_") x = false := by
          decide
        simp [hall m.name hn]
      · have hall : ∀ x ∈ queueNames, strHasPrefix ("wakatime_admin_") x = false := by
          decide
        simp [hall m.name hn]

/-- Witness for `nonAdmin_no_admin_metrics` at the concrete non-admin user and
all-success environments. -/
theorem nonAdmin_no_admin_metrics_witness :
    getAdminMetrics plainUser okAdminEnv = Except.error ("unauthorized") ∧
    ∃ ms, responseMetrics (some plainUser) okUserEnv okAdminEnv = some ms ∧
      ms.countP (fun m => strHasPrefix ("wakatime_admin_") m.name) = 0 :=
  ⟨nonAdmin_no_admin_metrics.1 plainUser okAdminEnv rfl,
    ⟨_, rfl, nonAdmin_no_admin_metrics.2 plainUser okUserEnv okAdminEnv _ rfl rfl⟩⟩

/-- Names of the label-less admin scalar metrics. -/
def adminScalarNames : List String :=
  [ "wakatime_admin_seconds_total", "wakatime_admin_heartbeats_total",
    "wakatime_admin_users_total", "wakatime_admin_users_active_total" ]

/-- Names of the per-user admin metrics (one label, key "user"). -/
def adminRowNames : List String :=
  [ "wakatime_admin_user_heartbeats_total", "wakatime_admin_user_time_seconds_total" ]

theorem getAdminMetrics_shape {u : User} {aenv : AdminEnv} {ms : List Metric}
    (h : getAdminMetrics u aenv = Except.ok ms) :
    ∀ m ∈ ms,
      (m.name ∈ adminScalarNames ∧ m.labels = []) ∨
      (m.name ∈ adminRowNames ∧ ∃ uid, m.labels = [⟨"user", uid⟩]) := by
  by_cases hadm : u.isAdmin = false
  · simp [getAdminMetrics, hadm] at h
  · unfold getAdminMetrics at h
    rw [if_neg hadm] at h
    cases hus : aenv.activeUsers with
    | error e =>
      rw [hus] at h
      cases h
    | ok us =>
    rw [hus] at h
    cases hcs : aenv.countByUsers with
    | error e =>
      rw [hcs] at h
      cases h
    | ok cs =>
    rw [hcs] at h
    cases h
    intro m hm
    rcases List.mem_append.mp hm with hm | hm
    · rcases List.mem_append.mp hm with hm | hm
      · simp only [adminScalars, List.mem_cons, List.not_mem_nil, or_false] at hm
        rcases hm with rfl | rfl | rfl | rfl
        all_goals simp only [name_GaugeMetric, labels_GaugeMetric]
        all_goals exact Or.inl ⟨by decide, by trivial⟩
      · rcases List.mem_map.mp hm with ⟨uc, _, rfl⟩
        rw [hbRow_name, hbRow_labels]
        exact Or.inr ⟨by decide, uc.user, rfl⟩
    · rcases List.mem_filterMap.mp hm with ⟨v, _, hv⟩
      obtain ⟨hn, hl⟩ := timeRow_shape hv
      rw [hn, hl]
      exact Or.inr ⟨by decide, v.id, rfl⟩

/-- **C10.** Every metric instance appended by `getUserMetrics` and
`getAdminMetrics` has a Name beginning with "wakatime_" and a label
sequence of at most one pair whose key, when present, is "name", "user",
or "queue". (The Go distinction between a nil and an empty slice does not
exist for Lean lists; the code always constructs the labels explicitly.) -/
theorem metric_name_label_invariant :
    (∀ (uenv : UserEnv) (ms : List Metric), getUserMetrics uenv = Except.ok ms →
      ∀ m ∈ ms, strHasPrefix ("wakatime_") m.name = true ∧ m.labels.length ≤ 1 ∧
        ∀ l ∈ m.labels, l.key = "name" ∨ l.key = "user" ∨ l.key = "queue") ∧
    (∀ (u : User) (aenv : AdminEnv) (ms : List Metric), getAdminMetrics u aenv = Except.ok ms →
      ∀ m ∈ ms, strHasPrefix ("wakatime_") m.name = true ∧ m.labels.length ≤ 1 ∧
        ∀ l ∈ m.labels, l.key = "name" ∨ l.key = "user" ∨ l.key = "queue") := by
  constructor
  · intro uenv ms h m hm
    rcases getUserMetrics_shape h m hm with ⟨hn, hl⟩ | ⟨hn, k, hl⟩ | ⟨hn, q, hl⟩
    · have hall : ∀ x ∈ scalarUserNames, strHasPrefix ("wakatime_") x = true := by decide
      refine ⟨hall m.name hn, ?_, ?_⟩
      · rw [hl]
        decide
      · intro l hlmem
        rw [hl] at hlmem
        simp at hlmem
    · have hall : ∀ x ∈ breakdownNames, strHasPrefix ("wakatime_") x = true := by decide
      refine ⟨hall m.name hn, ?_, ?_⟩
      · rw [hl]
        exact Nat.le_refl 1
      · intro l hlmem
        rw [hl] at hlmem
        simp only [List.mem_cons, List.not_mem_nil, or_false] at hlmem
        subst hlmem
        exact Or.inl rfl
    · have hall : ∀ x ∈ queueNames, strHasPrefix ("wakatime_") x = true := by decide
      refine ⟨hall m.name hn, ?_, ?_⟩
      · rw [hl]
        exact Nat.le_refl 1
      · intro l hlmem
        rw [hl] at hlmem
        simp only [List.mem_cons, List.not_mem_nil, or_false] at hlmem
        subst hlmem
        exact Or.inr (Or.inr rfl)
  · intro u aenv ms h m hm
    rcases getAdminMetrics_shape h m hm with ⟨hn, hl⟩ | ⟨hn, uid, hl⟩
    · have hall : ∀ x ∈ adminScalarNames, strHasPrefix ("wakatime_") x = true := by decide
      refine ⟨hall m.name hn, ?_, ?_⟩
      · rw [hl]
        decide
      · intro l hlmem
        rw [hl] at hlmem
        simp at hlmem
    · have hall : ∀ x ∈ adminRowNames, strHasPrefix ("wakatime_") x = true := by decide
      refine ⟨hall m.name hn, ?_, ?_⟩
      · rw [hl]
        exact Nat.le_refl 1
      · intro l hlmem
        rw [hl] at hlmem
        simp only [List.mem_cons, List.not_mem_nil, or_false] at hlmem
        subst hlmem
        exact Or.inr (Or.inl rfl)

/-- Witness for `metric_name_label_invariant` at the concrete all-success
environments. -/
theorem metric_name_label_invariant_witness :
    (∃ ms, getUserMetrics okUserEnv = Except.ok ms ∧
      ∀ m ∈ ms, strHasPrefix ("wakatime_") m.name = true ∧ m.labels.length ≤ 1 ∧
        ∀ l ∈ m.labels, l.key = "name" ∨ l.key = "user" ∨ l.key = "queue") ∧
    (∃ ms, getAdminMetrics adminUser okAdminEnv = Except.ok ms ∧
      ∀ m ∈ ms, strHasPrefix ("wakatime_") m.name = true ∧ m.labels.length ≤ 1 ∧
        ∀ l ∈ m.labels, l.key = "name" ∨ l.key = "user" ∨ l.key = "queue") :=
  ⟨⟨_, rfl, metric_name_label_invariant.1 okUserEnv _ rfl⟩,
    ⟨_, rfl, metric_name_label_invariant.2 adminUser okAdminEnv _ rfl⟩⟩

/-! ### Counting lemmas for the admin aggregation -/

def exceptOk {ε α : Type} : Except ε α → Bool
  | Except.ok _ => true
  | Except.error _ => false

theorem timeRow_isSome (aenv : AdminEnv) (u : User) :
    (timeRow aenv u).isSome = exceptOk (aenv.perUserSummary u.id) := by
  cases h : aenv.perUserSummary u.id with
  | error e => simp [timeRow, exceptOk, h]
  | ok s => simp [timeRow, exceptOk, h]

theorem countP_hbName_map_hbRow (cs : List UserCount) :
    (cs.map hbRow).countP
      (fun m => m.name == MetricsPrefix ++ "_admin_user_heartbeats_total") = cs.length := by
  induction cs with
  | nil => rfl
  | cons c ct ih => simp [List.countP_cons, hbRow_name, ih]

theorem countP_name_map_hbRow_eq_zero (cs : List UserCount) (N : String)
    (h : ((MetricsPrefix ++ "_admin_user_heartbeats_total" : String) == N) = false) :
    (cs.map hbRow).countP (fun m => m.name == N) = 0 := by
  rw [List.countP_eq_zero]
  intro m hm
  rcases List.mem_map.mp hm with ⟨uc, _, rfl⟩
  simp [hbRow_name, h]

theorem countP_name_filterMap_timeRow_eq_zero (aenv : AdminEnv) (us : List User) (N : String)
    (h : ((MetricsPrefix ++ "_admin_user_time_seconds_total" : String) == N) = false) :
    (us.filterMap (timeRow aenv)).countP (fun m => m.name == N) = 0 := by
  rw [List.countP_eq_zero]
  intro m hm
  rcases List.mem_filterMap.mp hm with ⟨v, _, hv⟩
  simp [(timeRow_shape hv).1, h]

theorem countP_timeName_filterMap_timeRow (aenv : AdminEnv) (us : List User) :
    (us.filterMap (timeRow aenv)).countP
        (fun m => m.name == MetricsPrefix ++ "_admin_user_time_seconds_total")
      = us.countP (fun u => exceptOk (aenv.perUserSummary u.id)) := by
  have h1 : (us.filterMap (timeRow aenv)).countP
      (fun m => m.name == MetricsPrefix ++ "_admin_user_time_seconds_total")
      = (us.filterMap (timeRow aenv)).length := by
    rw [List.countP_eq_length]
    intro m hm
    rcases List.mem_filterMap.mp hm with ⟨v, _, hv⟩
    simp [(timeRow_shape hv).1]
  rw [h1, List.length_filterMap_eq_countP]
  apply List.countP_congr
  intro u _
  rw [timeRow_isSome]

theorem userMetrics_name_not_admin {uenv : UserEnv} {ms : List Metric}
    (h : getUserMetrics uenv = Except.ok ms) (N : String)
    (hN : strHasPrefix ("wakatime_admin_") N = true) :
    ∀ m ∈ ms, ¬ m.name = N := by
  intro m hm heq
  rcases getUserMetrics_shape h m hm with ⟨hn, _⟩ | ⟨hn, _⟩ | ⟨hn, _⟩
  · have hfalse : ∀ x ∈ scalarUserNames, strHasPrefix ("wakatime_admin_") x = false := by
      decide
    rw [heq] at hn
    rw [hfalse N hn] at hN
    cases hN
  · have hfalse : ∀ x ∈ breakdownNames, strHasPrefix ("wakatime_admin_") x = false := by
      decide
    rw [heq] at hn
    rw [hfalse N hn] at hN
    cases hN
  · have hfalse : ∀ x ∈ queueNames, strHasPrefix ("wakatime_admin_") x = false := by
      decide
    rw [heq] at hn
    rw [hfalse N hn] at hN
    cases hN

theorem countP_name_userMetrics_eq_zero {uenv : UserEnv} {ms : List Metric}
    (h : getUserMetrics uenv = Except.ok ms) (N : String)
    (hN : strHasPrefix ("wakatime_admin_") N = true) :
    ms.countP (fun m => m.name == N) = 0 := by
  rw [List.countP_eq_zero]
  intro m hm
  simpa using userMetrics_name_not_admin h N hN m hm

theorem filter_name_userMetrics_eq_nil {uenv : UserEnv} {ms : List Metric}
    (h : getUserMetrics uenv = Except.ok ms) (N : String)
    (hN : strHasPrefix ("wakatime_admin_") N = true) :
    ms.filter (fun m => m.name == N) = [] := by
  rw [List.filter_eq_nil_iff]
  intro m hm
  simpa using userMetrics_name_not_admin h N hN m hm

theorem filter_name_map_hbRow_eq_nil (cs : List UserCount) (N : String)
    (h : ((MetricsPrefix ++ "_admin_user_heartbeats_total" : String) == N) = false) :
    (cs.map hbRow).filter (fun m => m.name == N) = [] := by
  rw [List.filter_eq_nil_iff]
  intro m hm
  rcases List.mem_map.mp hm with ⟨uc, _, rfl⟩
  simp [hbRow_name, h]

theorem filter_name_filterMap_timeRow_eq_nil (aenv : AdminEnv) (us : List User) (N : String)
    (h : ((MetricsPrefix ++ "_admin_user_time_seconds_total" : String) == N) = false) :
    (us.filterMap (timeRow aenv)).filter (fun m => m.name == N) = [] := by
  rw [List.filter_eq_nil_iff]
  intro m hm
  rcases List.mem_filterMap.mp hm with ⟨v, _, hv⟩
  simp [(timeRow_shape hv).1, h]

theorem countP_not_add (l : List User) (p : User → Bool) :
    l.countP p + l.countP (fun u => !(p u)) = l.length := by
  induction l with
  | nil => rfl
  | cons x xs ih =>
    cases hx : p x <;> simp [List.countP_cons, hx] <;> omega

/-- Environment for the two-user failure-isolation scenario: active users `A`
and `B`, a heartbeat count for each, and a total-time summary lookup that
errors exactly for `B`. -/
def abAdminEnv : AdminEnv :=
  ⟨Except.ok none, fun _ => none, 0, none, 0, none,
    Except.ok [⟨"A", false⟩, ⟨"B", false⟩],
    Except.ok [⟨"A", 5⟩, ⟨"B", 7⟩],
    fun uid => if uid == ("B") then Except.error ("summary failed")
               else Except.ok ⟨42, [], [], [], [], [], []⟩⟩

/-- **C4.** In the admin aggregation, a per-user total-time task whose summary
request fails appends no metric and the aggregation still succeeds: with
active users `a` and `b` where only `b`'s lookup errors, the response is 200
and its metric set contains an `_admin_user_time_seconds_total` metric
labeled with `a` and none labeled with `b`. -/
theorem adminAggregation_failure_isolation
    (uenv : UserEnv) (aenv : AdminEnv) (a b : String) (hab : ¬ a = b)
    (admin : User) (hadm : admin.isAdmin = true)
    (hok : ∃ ums, getUserMetrics uenv = Except.ok ums)
    (hus : aenv.activeUsers = Except.ok [⟨a, false⟩, ⟨b, false⟩])
    (hcs : ∃ cs, aenv.countByUsers = Except.ok cs)
    (hsa : ∃ s, aenv.perUserSummary a = Except.ok s)
    (hsb : ∃ e, aenv.perUserSummary b = Except.error e) :
    (Get (some admin) uenv aenv).status = 200 ∧
    ∃ ms, responseMetrics (some admin) uenv aenv = some ms ∧
      (∃ m ∈ ms, m.name = MetricsPrefix ++ "_admin_user_time_seconds_total" ∧
        m.labels = [⟨"user", a⟩]) ∧
      (∀ m ∈ ms, m.name = MetricsPrefix ++ "_admin_user_time_seconds_total" →
        ¬ m.labels = [⟨"user", b⟩]) := by
  obtain ⟨ums, hums⟩ := hok
  obtain ⟨cs, hcs⟩ := hcs
  obtain ⟨s, hsa⟩ := hsa
  obtain ⟨e, hsb⟩ := hsb
  have htA : timeRow aenv ⟨a, false⟩
      = some (GaugeMetric (MetricsPrefix ++ "_admin_user_time_seconds_total")
          DescAdminUserTime s.totalSeconds [⟨"user", a⟩]) := by
    simp [timeRow, hsa]
  have htB : timeRow aenv ⟨b, false⟩ = none := by
    simp [timeRow, hsb]
  have hadminok : getAdminMetrics admin aenv = Except.ok
      (adminScalars (latestTotalSeconds aenv) aenv.totalHeartbeats aenv.totalUsers 2
        ++ cs.map hbRow
        ++ [GaugeMetric (MetricsPrefix ++ "_admin_user_time_seconds_total")
             DescAdminUserTime s.totalSeconds [⟨"user", a⟩]]) := by
    unfold getAdminMetrics
    rw [if_neg (by simp [hadm]), hus, hcs]
    simp only [List.filterMap_cons, htA, htB, List.filterMap_nil, List.length_cons,
      List.length_nil]
    rfl
  constructor
  · simp [Get, hums, hadm, hadminok]
  refine ⟨sortMetrics (ums ++ (adminScalars (latestTotalSeconds aenv) aenv.totalHeartbeats
      aenv.totalUsers 2 ++ cs.map hbRow
      ++ [GaugeMetric (MetricsPrefix ++ "_admin_user_time_seconds_total")
           DescAdminUserTime s.totalSeconds [⟨"user", a⟩]])), ?_, ?_, ?_⟩
  · simp only [responseMetrics, hums, hadminok, hadm, if_true]
  · refine ⟨GaugeMetric (MetricsPrefix ++ "_admin_user_time_seconds_total")
      DescAdminUserTime s.totalSeconds [⟨"user", a⟩], ?_, rfl, rfl⟩
    rw [(sortMetrics_perm _).mem_iff]
    apply List.mem_append_right
    apply List.mem_append_right
    exact List.mem_cons_self _ _
  · intro m hmM hname
    have hmem := (sortMetrics_perm _).mem_iff.mp hmM
    rcases List.mem_append.mp hmem with hm | hm
    · rcases getUserMetrics_shape hums m hm with ⟨hn, _⟩ | ⟨hn, _⟩ | ⟨hn, _⟩
      · have hfalse : ∀ x ∈ scalarUserNames,
            ¬ x = MetricsPrefix ++ "_admin_user_time_seconds_total" := by decide
        exact absurd hname (hfalse m.name hn)
      · have hfalse : ∀ x ∈ breakdownNames,
            ¬ x = MetricsPrefix ++ "_admin_user_time_seconds_total" := by decide
        exact absurd hname (hfalse m.name hn)
      · have hfalse : ∀ x ∈ queueNames,
            ¬ x = MetricsPrefix ++ "_admin_user_time_seconds_total" := by decide
        exact absurd hname (hfalse m.name hn)
    · rcases List.mem_append.mp hm with hm | hm
      · rcases List.mem_append.mp hm with hm | hm
        · simp only [adminScalars, List.mem_cons, List.not_mem_nil, or_false] at hm
          rcases hm with rfl | rfl | rfl | rfl
          all_goals rw [name_GaugeMetric] at hname
          all_goals exact absurd hname (by decide)
        · rcases List.mem_map.mp hm with ⟨uc, _, rfl⟩
          rw [hbRow_name] at hname
          exact absurd hname (by decide)
      · simp only [List.mem_cons, List.not_mem_nil, or_false] at hm
        subst hm
        rw [labels_GaugeMetric]
        intro heq
        simp only [List.cons.injEq, Label.mk.injEq, true_and, and_true] at heq
        exact hab heq

/-- Witness for `adminAggregation_failure_isolation` at the concrete
environment `abAdminEnv` with users "A" and "B". -/
theorem adminAggregation_failure_isolation_witness :
    (Get (some adminUser) okUserEnv abAdminEnv).status = 200 ∧
    ∃ ms, responseMetrics (some adminUser) okUserEnv abAdminEnv = some ms ∧
      (∃ m ∈ ms, m.name = MetricsPrefix ++ "_admin_user_time_seconds_total" ∧
        m.labels = [⟨"user", "A"⟩]) ∧
      (∀ m ∈ ms, m.name = MetricsPrefix ++ "_admin_user_time_seconds_total" →
        ¬ m.labels = [⟨"user", "B"⟩]) :=
  adminAggregation_failure_isolation okUserEnv abAdminEnv ("A") ("B") (by decide)
    adminUser rfl ⟨_, rfl⟩ rfl ⟨_, rfl⟩ ⟨_, rfl⟩ ⟨"summary failed", rfl⟩

/-- **C7.** For an authenticated admin whose N active users include K whose
total-time computation fails, the successful response contains exactly N
`_admin_user_heartbeats_total` rows, exactly N−K `_admin_user_time_seconds_total`
rows, and its `_admin_users_active_total` scalar carries value N — under the
collaborator contract that the batched heartbeat count returns one row per
active user. -/
theorem admin_row_counts
    (uenv : UserEnv) (aenv : AdminEnv) (admin : User) (hadm : admin.isAdmin = true)
    (hok : ∃ ums, getUserMetrics uenv = Except.ok ums)
    (us : List User) (hus : aenv.activeUsers = Except.ok us)
    (cs : List UserCount) (hcs : aenv.countByUsers = Except.ok cs)
    (hlen : cs.length = us.length) :
    ∃ ms, responseMetrics (some admin) uenv aenv = some ms ∧
      (Get (some admin) uenv aenv).status = 200 ∧
      ms.countP (fun m => m.name == MetricsPrefix ++ "_admin_user_heartbeats_total")
        = us.length ∧
      ms.countP (fun m => m.name == MetricsPrefix ++ "_admin_user_time_seconds_total")
        = us.length - us.countP (fun u => !(exceptOk (aenv.perUserSummary u.id))) ∧
      ms.filter (fun m => m.name == MetricsPrefix ++ "_admin_users_active_total")
        = [GaugeMetric (MetricsPrefix ++ "_admin_users_active_total") DescAdminActiveUsers
            (us.length : Int) []] := by
  obtain ⟨ums, hums⟩ := hok
  have hadminok : getAdminMetrics admin aenv = Except.ok
      (adminScalars (latestTotalSeconds aenv) aenv.totalHeartbeats aenv.totalUsers
          (us.length : Int)
        ++ cs.map hbRow ++ us.filterMap (timeRow aenv)) := by
    unfold getAdminMetrics
    rw [if_neg (by simp [hadm]), hus, hcs]
  refine ⟨sortMetrics (ums ++ (adminScalars (latestTotalSeconds aenv) aenv.totalHeartbeats
      aenv.totalUsers (us.length : Int) ++ cs.map hbRow ++ us.filterMap (timeRow aenv))),
    ?_, ?_, ?_, ?_, ?_⟩
  · simp only [responseMetrics, hums, hadminok, hadm, if_true]
  · simp [Get, hums, hadm, hadminok]
  · have h1 := countP_name_userMetrics_eq_zero hums
      (MetricsPrefix ++ "_admin_user_heartbeats_total") (by decide)
    have h2 : (adminScalars (latestTotalSeconds aenv) aenv.totalHeartbeats aenv.totalUsers
        (us.length : Int)).countP
        (fun m => m.name == MetricsPrefix ++ "_admin_user_heartbeats_total") = 0 := rfl
    have h3 := countP_hbName_map_hbRow cs
    have h4 := countP_name_filterMap_timeRow_eq_zero aenv us
      (MetricsPrefix ++ "_admin_user_heartbeats_total") (by decide)
    rw [(sortMetrics_perm _).countP_eq]
    simp only [List.countP_append, h1, h2, h3, h4]
    omega
  · have h1 := countP_name_userMetrics_eq_zero hums
      (MetricsPrefix ++ "_admin_user_time_seconds_total") (by decide)
    have h2 : (adminScalars (latestTotalSeconds aenv) aenv.totalHeartbeats aenv.totalUsers
        (us.length : Int)).countP
        (fun m => m.name == MetricsPrefix ++ "_admin_user_time_seconds_total") = 0 := rfl
    have h3 := countP_name_map_hbRow_eq_zero cs
      (MetricsPrefix ++ "_admin_user_time_seconds_total") (by decide)
    have h4 := countP_timeName_filterMap_timeRow aenv us
    have h5 := countP_not_add us (fun u => exceptOk (aenv.perUserSummary u.id))
    rw [(sortMetrics_perm _).countP_eq]
    simp only [List.countP_append, h1, h2, h3, h4]
    omega
  · have h1 := filter_name_userMetrics_eq_nil hums
      (MetricsPrefix ++ "_admin_users_active_total") (by decide)
    have h2 : (adminScalars (latestTotalSeconds aenv) aenv.totalHeartbeats aenv.totalUsers
        (us.length : Int)).filter
        (fun m => m.name == MetricsPrefix ++ "_admin_users_active_total")
        = [GaugeMetric (MetricsPrefix ++ "_admin_users_active_total") DescAdminActiveUsers
            (us.length : Int) []] := rfl
    have h3 := filter_name_map_hbRow_eq_nil cs
      (MetricsPrefix ++ "_admin_users_active_total") (by decide)
    have h4 := filter_name_filterMap_timeRow_eq_nil aenv us
      (MetricsPrefix ++ "_admin_users_active_total") (by decide)
    have hperm := (sortMetrics_perm (ums ++ (adminScalars (latestTotalSeconds aenv)
      aenv.totalHeartbeats aenv.totalUsers (us.length : Int) ++ cs.map hbRow
      ++ us.filterMap (timeRow aenv)))).filter
      (fun m => m.name == MetricsPrefix ++ "_admin_users_active_total")
    rw [List.filter_append, List.filter_append, List.filter_append, h1, h2, h3, h4] at hperm
    exact List.perm_singleton.mp (by simpa using hperm)

/-- Witness for `admin_row_counts` at the two-user environment `abAdminEnv`
(N = 2 active users, K = 1 failing lookup). -/
theorem admin_row_counts_witness :
    ∃ ms, responseMetrics (some adminUser) okUserEnv abAdminEnv = some ms ∧
      (Get (some adminUser) okUserEnv abAdminEnv).status = 200 ∧
      ms.countP (fun m => m.name == MetricsPrefix ++ "_admin_user_heartbeats_total") = 2 ∧
      ms.countP (fun m => m.name == MetricsPrefix ++ "_admin_user_time_seconds_total") = 1 ∧
      ms.filter (fun m => m.name == MetricsPrefix ++ "_admin_users_active_total")
        = [GaugeMetric (MetricsPrefix ++ "_admin_users_active_total") DescAdminActiveUsers
            2 []] :=
  admin_row_counts okUserEnv abAdminEnv adminUser rfl ⟨_, rfl⟩
    [⟨"A", false⟩, ⟨"B", false⟩] rfl [⟨"A", 5⟩, ⟨"B", 7⟩] rfl rfl

/-! ### C3: ordering of the final sort and of the rendered sample lines -/

/-- **C3 counterexample.** The contract of Go's `sort.Sort` (a permutation of
the input, pairwise ordered by the comparator — stability is explicitly not
guaranteed) admits, for two metrics with equal (Name, first-label-value) keys,
an output in which their input order is swapped: the claimed stability does
not hold of the sort the code performs. -/
theorem goSort_unstable_on_equal_keys :
    goSortRel [GaugeMetric ("a") ("d") 1 [], GaugeMetric ("a") ("d") 2 []]
      [GaugeMetric ("a") ("d") 2 [], GaugeMetric ("a") ("d") 1 []] ∧
    ¬ stableFor [GaugeMetric ("a") ("d") 1 [], GaugeMetric ("a") ("d") 2 []]
      [GaugeMetric ("a") ("d") 2 [], GaugeMetric ("a") ("d") 1 []] := by
  refine ⟨⟨by decide, by decide⟩, ?_⟩
  intro h
  exact absurd (h ("a", "")) (by decide)

/-- **C3 (amended).** The final step sorts the merged MetricSet ascending by
(Name, then first label's value): the model's sort satisfies the `sort.Sort`
contract, and for every output admitted by that contract the rendered sample
lines are in ascending key order — any sample line A preceding a sample line B
has A's (Name, first-label-value) pair lexicographically ≤ B's. Stability is
not part of the contract (the code uses Go's unstable `sort.Sort`, not
`sort.Stable`). -/
theorem sorted_output_line_order :
    (∀ ms, goSortRel ms (sortMetrics ms)) ∧
    (∀ input output, goSortRel input output →
      List.Pairwise keyLE ((expositionLines output).filterMap sampleKey)) := by
  constructor
  · exact sortMetrics_goSortRel
  · intro input output h
    exact expositionLines_samples_pairwise output h.2

/-- Witness for `sorted_output_line_order` at a concrete sorted two-metric
output. -/
theorem sorted_output_line_order_witness :
    List.Pairwise keyLE ((expositionLines [GaugeMetric ("a") ("d") 2 [],
      GaugeMetric ("b") ("d") 1 []]).filterMap sampleKey) :=
  sorted_output_line_order.2 [GaugeMetric ("b") ("d") 1 [], GaugeMetric ("a") ("d") 2 []]
    [GaugeMetric ("a") ("d") 2 [], GaugeMetric ("b") ("d") 1 []] ⟨by decide, by decide⟩

/-! ### C5: grouping of the per-language metrics -/

/-- User environment whose today summary contains exactly the languages go
and rust, with the given attributed seconds. -/
def goRustUserEnv (g r : Int) : UserEnv :=
  ⟨Except.ok emptySummary,
    Except.ok ⟨g + r, [], [⟨"go", g⟩, ⟨"rust", r⟩], [], [], [], []⟩,
    Except.ok 0, ⟨0, 0, 0, 0, 0⟩, 0, none, []⟩

/-- Selects the exposition lines carrying the per-language metric name. -/
def langLine : ExpLine → Bool
  | ExpLine.help n _ => n == "wakatime_language_seconds_total"
  | ExpLine.typ n _ => n == "wakatime_language_seconds_total"
  | ExpLine.sample n _ _ => n == "wakatime_language_seconds_total"

/-- **C5 counterexample.** With today's summary containing exactly the
languages go and rust, the per-language metrics are emitted under the name
`wakatime_language_seconds_total` — the rendered output contains zero HELP
lines and zero sample lines for the claimed name
`wakapi_language_seconds_total` (MetricsPrefix is "wakatime"). -/
theorem language_metrics_not_named_wakapi :
    ∃ ms, responseMetrics (some plainUser) (goRustUserEnv 3 6) okAdminEnv = some ms ∧
      (expositionLines ms).countP (fun l => match l with
          | ExpLine.help n _ => n == "wakapi_language_seconds_total"
          | _ => false) = 0 ∧
      (expositionLines ms).countP (fun l => match l with
          | ExpLine.sample n _ _ => n == "wakapi_language_seconds_total"
          | _ => false) = 0 ∧
      ms.countP (fun m => m.name == "wakatime_language_seconds_total") = 2 := by
  refine ⟨_, rfl, ?_, ?_, ?_⟩ <;> decide

set_option maxHeartbeats 2000000 in
/-- **C5 (amended).** For an authenticated user whose today summary contains
exactly the languages go and rust, the collector emits one metric instance per
language under `wakatime_language_seconds_total` with the language key as the
single label value, and the rendered output's lines for that name are exactly
one HELP line and one TYPE line followed by the two sample lines. -/
theorem language_metrics_grouped (g r : Int) :
    ∃ ms, responseMetrics (some plainUser) (goRustUserEnv g r) okAdminEnv = some ms ∧
      (expositionLines ms).filter langLine
        = [ExpLine.help ("wakatime_language_seconds_total") DescLanguages,
           ExpLine.typ ("wakatime_language_seconds_total") MetricKind.gauge,
           ExpLine.sample ("wakatime_language_seconds_total") [⟨"name", "go"⟩] g,
           ExpLine.sample ("wakatime_language_seconds_total") [⟨"name", "rust"⟩] r] := by
  have hg : totalTimeByKey [⟨"go", g⟩, ⟨"rust", r⟩] ("go") = g := by
    simp [totalTimeByKey]
  have hr : totalTimeByKey [⟨"go", g⟩, ⟨"rust", r⟩] ("rust") = r := by
    simp [totalTimeByKey]
  refine ⟨_, rfl, ?_⟩
  conv_rhs => rw [← hg, ← hr]
  rfl

end Wakapi
